import Mathlib

/-!
# Verification of the gomacro core sample

Shallow embedding of three subsystems of the sampled gomacro sources:

* `Jit` — the virtual-register instruction buffer (`jit/code.go`):
  `Code`, `Inst1`, `Inst2` and the operand encoder `asmArg`.
* `XRef` — the runtime type bridge (`xreflect/type.go`): the function-shaped
  accessors `In`, `Out`, `NumIn`, `NumOut`, `Recv`, `IsVariadic`, `IsMethod`
  and the constructors `FuncOf` / `MethodOf`.
* `Fast` — the Place/assignment compiler (`place_set.go`, macro-expanded):
  `placeSetConst` and `placeSetExpr` compiling assignments into threaded
  statements over an explicit `Env`.

Go's machine integers are modelled as `Int`/`Nat` with explicit wrapping;
Go panics are modelled as `Option`/`Except` failures; effectful closures
(`func(*Env) r.Value`) are modelled by explicit state passing `Env → _ × Env`.
-/

namespace GomacroSpec

/-- Model of `reflect.Kind`: the full enumeration of Go's runtime kinds. -/
inductive RKind where
  | Invalid | Bool
  | Int | Int8 | Int16 | Int32 | Int64
  | Uint | Uint8 | Uint16 | Uint32 | Uint64 | Uintptr
  | Float32 | Float64
  | Complex64 | Complex128
  | Array | Chan | Func | Interface | Map | Ptr | Slice
  | String | Struct | UnsafePointer
deriving DecidableEq, Repr

/-- The signed-integer kinds. -/
def isIntKind : RKind → Bool
  | .Int | .Int8 | .Int16 | .Int32 | .Int64 => true
  | _ => false

/-- The unsigned-integer kinds. -/
def isUintKind : RKind → Bool
  | .Uint | .Uint8 | .Uint16 | .Uint32 | .Uint64 | .Uintptr => true
  | _ => false

/-- Bit width of an integer kind (`int`, `uint` and `uintptr` are 64-bit on
the targets gomacro supports). -/
def kindWidth : RKind → Nat
  | .Int8 | .Uint8 => 8
  | .Int16 | .Uint16 => 16
  | .Int32 | .Uint32 => 32
  | _ => 64

/-- Two's-complement wrap of a mathematical integer into a signed kind,
exactly what storing through `reflect.Value.SetInt` does for a narrower cell. -/
def wrapInt (k : RKind) (x : Int) : Int :=
  (x + 2 ^ (kindWidth k - 1)) % (2 ^ kindWidth k) - 2 ^ (kindWidth k - 1)

/-- Wrap of a natural number into an unsigned kind. -/
def wrapUint (k : RKind) (x : Nat) : Nat :=
  x % 2 ^ kindWidth k

/-- Boolean test that an `Except` is an error (a Go panic in this model). -/
def isErrE {α : Type} : Except String α → Bool
  | .ok _ => false
  | .error _ => true

/- ===================================================================
   Jit: the virtual-register instruction buffer (jit/code.go)
   =================================================================== -/

namespace Jit

/-- A soft-register identifier (`SoftRegId`). -/
abbrev SoftRegId := Nat

/-- Type-category tag carried by a soft register (`Kind` in package jit). -/
abbrev JKind := Nat

/-- One token of the low-level instruction stream (`AsmCode`).  A token is
either an operation code produced by an `.Asm()` call, a soft-register id, or
a kind tag (register lifecycle events append kind tags). -/
inductive AsmCode where
  | tok (op : Nat)
  | rid (id : SoftRegId)
  | knd (k : JKind)
deriving DecidableEq, Repr

/-- A virtual ("soft") register: an id plus a type-category tag. -/
structure SoftReg where
  id : SoftRegId
  kind : JKind
deriving DecidableEq, Repr

/-- Operands handed to the instruction buffer.  `asmcode` and `softreg` are
the two already-lowered shapes accepted by `asmArg`.

`expr1` / `expr2` are modelled from the spec: unlowered one- and two-operand
expression nodes (`*Expr1`, `*Expr2` are declared outside the sampled files);
`asmArg` never inspects their payload, so an opaque tag suffices.  `otherNode`
stands for any further implementation of the Go `Expr` interface, the
`default` branch of `asmArg`. -/
inductive Expr where
  | asmcode (a : AsmCode)
  | softreg (r : SoftReg)
  | expr1 (node : Nat)
  | expr2 (node : Nat)
  | otherNode (node : Nat)
deriving DecidableEq, Repr

/-- Single-operand instruction opcodes (`Inst1`); `NOP` is the designated
no-op marker. -/
abbrev Inst1T := Nat

/-- The designated no-op marker instruction. -/
def NOP : Inst1T := 0

/-- Two-operand instruction opcodes (`Inst2`); `ASSIGN` is the designated
assign instruction. -/
abbrev Inst2T := Nat

/-- The designated two-operand assign instruction. -/
def ASSIGN : Inst2T := 0

/-- Model of `Inst1.Asm()`: the stream token of a single-operand opcode. -/
def inst1Asm (i : Inst1T) : AsmCode := .tok i

/-- Model of `Inst2.Asm()`: the stream token of a two-operand opcode. -/
def inst2Asm (i : Inst2T) : AsmCode := .tok i

/-- The append-only instruction stream (`Code`). -/
abbrev Code := List AsmCode

/-- Model of `asmArg`: the operand encoder.  A raw `AsmCode` token is returned as is,
a soft register encodes as its id; an unlowered expression node (`*Expr1`,
`*Expr2`) is a fatal internal error (`errorf` in Go raises), as is any other
`Expr` implementation. -/
def asmArg : Expr → Except String AsmCode
  | .asmcode a => .ok a
  | .softreg r => .ok (.rid r.id)
  | .expr1 _ => .error "internal error: cannot assemble Expr1, must be compiled first"
  | .expr2 _ => .error "internal error: cannot assemble Expr2, must be compiled first"
  | .otherNode _ => .error "unknown Expr type"

/-- Model of `Code.Inst1`: append a single-operand instruction unless it is the `NOP`
marker, which is elided entirely.  The result pairs the Go panic behaviour
(`Except`) with the buffer state: on a panic the buffer is unchanged.
Note Go evaluates `asmArg(dst)` only inside the non-`NOP` branch. -/
def Code.Inst1 (c : Code) (inst : Inst1T) (dst : Expr) : Except String Unit × Code :=
  if inst ≠ NOP then
    match asmArg dst with
    | .ok a => (.ok (), c ++ [inst1Asm inst, a])
    | .error e => (.error e, c)
  else (.ok (), c)

/-- Model of `Code.Inst2`: append a two-operand instruction unless it is the `ASSIGN`
instruction whose source and destination encode to the same operand — a
self-assignment is always elided.  Go computes `asmArg(src)` and
`asmArg(dst)` before testing the condition. -/
def Code.Inst2 (c : Code) (inst : Inst2T) (src dst : Expr) : Except String Unit × Code :=
  match asmArg src, asmArg dst with
  | .ok asrc, .ok adst =>
    if inst ≠ ASSIGN ∨ asrc ≠ adst then (.ok (), c ++ [inst2Asm inst, asrc, adst])
    else (.ok (), c)
  | .error e, _ => (.error e, c)
  | .ok _, .error e => (.error e, c)

end Jit

/- ===================================================================
   XRef: the runtime type bridge (xreflect/type.go)
   =================================================================== -/

namespace XRef

/-- Model of a `go/types` type (`gtype`): either an opaque non-function type
or a signature.  A `types.Var` (parameter/receiver) is modelled by the type
it wraps — names and positions play no role in the sampled code. -/
inductive GType where
  | basic (id : Nat)
  | signature (recv : Option GType) (params : List GType) (results : List GType)
      (variadic : Bool)

/-- Model of a `reflect.Type` (`rtype`): an opaque non-function type tagged
with its kind (the `id` distinguishes distinct types of the same kind), or a
function type with its runtime input/output lists. -/
inductive RType where
  | basic (k : RKind) (id : Nat)
  | func (tin : List RType) (tout : List RType) (variadic : Bool)

/-- Model of `reflect.Type.Kind()`. -/
def rtypeKind : RType → RKind
  | .basic k _ => k
  | .func _ _ _ => .Func

/-- Model of `reflect.Type.In(i)`: panics (here `none`) when the type is not a
function or the index is out of range. -/
def rtypeIn (t : RType) (i : Int) : Option RType :=
  match t with
  | .func tin _ _ => if i < 0 then none else tin.get? i.toNat
  | .basic _ _ => none

/-- Model of `reflect.Type.Out(i)`. -/
def rtypeOut (t : RType) (i : Int) : Option RType :=
  match t with
  | .func _ tout _ => if i < 0 then none else tout.get? i.toNat
  | .basic _ _ => none

/-- Model of `reflect.Type.NumIn()` (declared runtime parameter count). -/
def rtypeNumIn : RType → Option Nat
  | .func tin _ _ => some tin.length
  | .basic _ _ => none

/-- Model of `reflect.Type.IsVariadic()`. -/
def rtypeIsVariadic : RType → Option Bool
  | .func _ _ v => some v
  | .basic _ _ => none

/-- Model of `reflect.FuncOf(in, out, variadic)`. -/
def reflectFuncOf (tin tout : List RType) (variadic : Bool) : RType :=
  .func tin tout variadic

/-- A static/runtime type pairing owned by a universe (`xtype`).  `univ` is
the owning universe's identity (universes are modelled by their identity,
which is all the sampled code observes of them). -/
structure XType where
  univ : Nat
  gtype : GType
  rtype : RType

/-- Modelled from the spec: `Universe.MakeType` pairs a static and a runtime
descriptor into a type owned by the universe (its caching/canonicalisation
is observationally the returned pairing). -/
def MakeType (v : Nat) (g : GType) (r : RType) : XType :=
  ⟨v, g, r⟩

/-- Modelled from the spec: a type's `Kind()` is the kind of its runtime
descriptor (static and runtime descriptors are kept in lockstep). -/
def XType.kind (t : XType) : RKind :=
  rtypeKind t.rtype

/-- Modelled from the spec: `underlying()` of the sampled function types is
their signature; named types are not exercised by the sampled code, so the
static descriptor is its own underlying type. -/
def XType.underlying (t : XType) : GType :=
  t.gtype

/-- Model of `types.Tuple.At(i)` / list indexing with a Go `int`: panics (here `none`)
on a negative or too-large index. -/
def listAt {α : Type} (l : List α) (i : Int) : Option α :=
  if i < 0 then none else l.get? i.toNat

/-- Model of `xtype.IsMethod`: reports whether a function type contains a receiver.
Signals an error (Go: `xerrorf` panic) if the kind is not `Func`; the
`.(*types.Signature)` assertion failure is likewise an error. -/
def XType.IsMethod (t : XType) : Except String Bool :=
  if t.kind ≠ RKind.Func then .error "IsMethod of non-func type"
  else match t.gtype with
    | .signature recv _ _ _ => .ok recv.isSome
    | .basic _ => .error "not a signature"

/-- Model of `xtype.IsVariadic`: errors if the kind is not `Func`, else reads the
runtime descriptor. -/
def XType.IsVariadic (t : XType) : Except String Bool :=
  if t.kind ≠ RKind.Func then .error "In of non-func type"
  else match rtypeIsVariadic t.rtype with
    | some v => .ok v
    | none => .error "not a func reflect type"

/-- Model of `xtype.In(i)`: the type of the i-th declared input parameter.  Errors if
the kind is not `Func` or the index is out of `[0, NumIn())`.  When the
function is a method, the receiver occupies runtime-parameter position 0 and
the runtime index is shifted by one ("skip the receiver in reflect.Type"). -/
def XType.In (t : XType) (i : Int) : Except String XType :=
  if t.kind ≠ RKind.Func then .error "In of non-func type"
  else match t.underlying with
    | .signature recv params _ _ =>
      match listAt params i with
      | none => .error "parameter index out of range"
      | some va =>
        let j := if recv.isSome then i + 1 else i
        match rtypeIn t.rtype j with
        | none => .error "reflect parameter index out of range"
        | some rt => .ok (MakeType t.univ va rt)
    | .basic _ => .error "not a signature"

/-- Model of `xtype.NumIn()`: the declared input parameter count (receiver excluded).
Errors if the kind is not `Func`. -/
def XType.NumIn (t : XType) : Except String Nat :=
  if t.kind ≠ RKind.Func then .error "NumIn of non-func type"
  else match t.underlying with
    | .signature _ params _ _ => .ok params.length
    | .basic _ => .error "not a signature"

/-- Model of `xtype.NumOut()`: the output parameter count.  Errors if the kind is not
`Func`. -/
def XType.NumOut (t : XType) : Except String Nat :=
  if t.kind ≠ RKind.Func then .error "NumOut of non-func type"
  else match t.underlying with
    | .signature _ _ results _ => .ok results.length
    | .basic _ => .error "not a signature"

/-- Model of `xtype.Out(i)`: the type of the i-th output parameter.  Errors if the
kind is not `Func` or the index is out of `[0, NumOut())`.  No receiver
offset applies to outputs. -/
def XType.Out (t : XType) (i : Int) : Except String XType :=
  if t.kind ≠ RKind.Func then .error "Out of non-func type"
  else match t.underlying with
    | .signature _ _ results _ =>
      match listAt results i with
      | none => .error "result index out of range"
      | some va =>
        match rtypeOut t.rtype i with
        | none => .error "reflect result index out of range"
        | some rt => .ok (MakeType t.univ va rt)
    | .basic _ => .error "not a signature"

/-- Model of `xtype.Recv()`: the receiver's type, or `none` when the function type has
no receiver.  Errors if the kind is not `Func`. -/
def XType.Recv (t : XType) : Except String (Option XType) :=
  if t.kind ≠ RKind.Func then .error "Recv of non-func type"
  else match t.underlying with
    | .signature recv _ _ _ =>
      match recv with
      | none => .ok none
      | some va =>
        match rtypeIn t.rtype 0 with
        | none => .error "reflect parameter index out of range"
        | some rt => .ok (some (MakeType t.univ va rt))
    | .basic _ => .error "not a signature"

/-- Modelled from the spec: `toGoParam` turns a static type into a go/types
parameter; a null type has no descriptor, so the conversion fails (in Go a
method call on a nil `Type` interface panics). -/
def toGoParam : Option XType → Except String GType
  | some t => .ok t.gtype
  | none => .error "nil Type"

/-- Modelled from the spec: `toGoTuple` converts a type list to a go/types
parameter tuple, converting each element in order. -/
def toGoTuple : List (Option XType) → Except String (List GType)
  | [] => .ok []
  | t :: ts =>
    match toGoParam t with
    | .error e => .error e
    | .ok g =>
      match toGoTuple ts with
      | .error e => .error e
      | .ok gs => .ok (g :: gs)

/-- Modelled from the spec: `ReflectType()` of a possibly-nil static type;
nil fails as above. -/
def toReflectType : Option XType → Except String RType
  | some t => .ok t.rtype
  | none => .error "nil Type"

/-- Modelled from the spec: `toReflectTypes` maps `ReflectType()` over a type
list in order. -/
def toReflectTypes : List (Option XType) → Except String (List RType)
  | [] => .ok []
  | t :: ts =>
    match toReflectType t with
    | .error e => .error e
    | .ok r =>
      match toReflectTypes ts with
      | .error e => .error e
      | .ok rs => .ok (r :: rs)

/-- Modelled from the spec: the default global universe (`universe` package
variable), identified as universe `0`. -/
def universeDefault : Nat := 0

/-- Model of `Universe.MethodOf`: builds a function-shaped type in universe `v`.  When
a receiver is supplied it is prepended to the runtime parameter list (the
receiver is an implicit first runtime parameter) while the signature keeps
the receiver distinct from the declared parameters. -/
def universeMethodOf (v : Nat) (recv : Option XType) (tin tout : List (Option XType))
    (variadic : Bool) : Except String XType :=
  match toGoTuple tin with
  | .error e => .error e
  | .ok gin =>
  match toGoTuple tout with
  | .error e => .error e
  | .ok gout =>
  match toReflectTypes tin with
  | .error e => .error e
  | .ok rin =>
  match toReflectTypes tout with
  | .error e => .error e
  | .ok rout =>
  match recv with
  | some rc =>
    match toGoParam (some rc) with
    | .error e => .error e
    | .ok grecv =>
      .ok (MakeType v (.signature (some grecv) gin gout variadic)
        (reflectFuncOf (rc.rtype :: rin) rout variadic))
  | none =>
    .ok (MakeType v (.signature none gin gout variadic)
      (reflectFuncOf rin rout variadic))

/-- Model of `Universe.FuncOf`: a function type is a method type with no receiver. -/
def universeFuncOf (v : Nat) (tin tout : List (Option XType)) (variadic : Bool) :
    Except String XType :=
  universeMethodOf v none tin tout variadic

/-- The universe selection performed by package-level `MethodOf` (the
`v := universe; if recv != nil ... else if len(in) != 0 && in[0] != nil ...
else if len(out) != 0 && out[0] != nil ...` chain, factored verbatim): the
receiver's universe; else the first input type's universe provided the input
list is nonempty and its first element is non-nil; else likewise for the
output list; else the default global universe. -/
def methodOfUniverse (recv : Option XType) (tin tout : List (Option XType)) : Nat :=
  match recv with
  | some r => r.univ
  | none =>
    match tin.head? with
    | some (some t0) => t0.univ
    | _ =>
      match tout.head? with
      | some (some t0) => t0.univ
      | _ => universeDefault

/-- The universe selection as the specification words it: the receiver's
universe; otherwise the universe of the FIRST NON-NULL input type; otherwise
the universe of the first non-null output type; otherwise the default global
universe.  Stated for comparison with `methodOfUniverse`. -/
def methodOfUniverseSpec (recv : Option XType) (tin tout : List (Option XType)) : Nat :=
  match recv with
  | some r => r.univ
  | none =>
    match (tin.filterMap id).head? with
    | some t0 => t0.univ
    | none =>
      match (tout.filterMap id).head? with
      | some t0 => t0.univ
      | none => universeDefault

/-- Package-level `MethodOf`: selects the owning universe, then builds the
type there. -/
def MethodOf (recv : Option XType) (tin tout : List (Option XType)) (variadic : Bool) :
    Except String XType :=
  universeMethodOf (methodOfUniverse recv tin tout) recv tin tout variadic

/-- Package-level `FuncOf`: `MethodOf` with no receiver. -/
def FuncOf (tin tout : List (Option XType)) (variadic : Bool) : Except String XType :=
  MethodOf none tin tout variadic

end XRef

/- ===================================================================
   Fast: the Place & assignment compiler (place_set.go, macro-expanded)
   =================================================================== -/

namespace Fast

/-- Stand-in widening of a float32 payload into a float64 payload.  IEEE
numerics are outside this model: float payloads are opaque bit patterns, and
the width-conversions are modelled by their algebraic contract — widening is
an exact injection and narrowing retracts it. -/
def f32toF64 (b : Nat) : Nat := 2 * b

/-- Stand-in narrowing (rounding) of a float64 payload to a float32 payload;
a left inverse of `f32toF64`. -/
def f64toF32 (b : Nat) : Nat := b / 2

/-- Stand-in encoding of an integer as a float64 payload (see `f32toF64`). -/
def intToF64 (i : Int) : Nat := 2 * i.natAbs + (if i < 0 then 1 else 0)

/-- Stand-in truncation of a float64 payload to an integer (see `f32toF64`). -/
def f64toInt (b : Nat) : Int := b

/-- Go's integer-to-string conversion yields the one-rune string of the code
point. -/
def intToRuneStr (i : Int) : String := String.mk [Char.ofNat i.toNat]

/-- Model of a `reflect.Value` payload.  `invalid` is the zero
`reflect.Value` (what `r.ValueOf(nil)` yields — the `Nil` sentinel); `noneV`
is the distinguished "no value" sentinel `None`.  Numeric payloads carry
their kind; `map` is a reference to a map object in the environment;
`nilRef` stands for the zero value of the remaining (composite/reference)
kinds, whose internal structure the sampled code never inspects. -/
inductive Value where
  | invalid
  | noneV
  | bool (b : Bool)
  | int (k : RKind) (i : Int)
  | uint (k : RKind) (n : Nat)
  | float (k : RKind) (bits : Nat)
  | complex (k : RKind) (re im : Nat)
  | str (s : String)
  | map (m : Nat)
  | nilRef (k : RKind)
deriving DecidableEq, Repr

/-- The kind of a value's type; `none` for the invalid/absent sentinels
(whose `Type()` panics). -/
def Value.kindOf : Value → Option RKind
  | .invalid => none
  | .noneV => none
  | .bool _ => some .Bool
  | .int k _ => some k
  | .uint k _ => some k
  | .float k _ => some k
  | .complex k _ _ => some k
  | .str _ => some .String
  | .map _ => some .Map
  | .nilRef k => some k

/-- Modelled from the spec: `base.ValueType` — the type of a value, `nil`
(here `none`) exactly for an untyped-nil-like value. -/
def ValueType (v : Value) : Option RKind := v.kindOf

/-- Model of `reflect.Value.Bool()`; panics (`none`) on any other kind. -/
def Value.getBool : Value → Option Bool
  | .bool b => some b
  | _ => none

/-- Model of `reflect.Value.Int()`: the signed payload as an `int64`. -/
def Value.getInt : Value → Option Int
  | .int _ i => some i
  | _ => none

/-- Model of `reflect.Value.Uint()`: the unsigned payload as a `uint64`. -/
def Value.getUint : Value → Option Nat
  | .uint _ n => some n
  | _ => none

/-- Model of `reflect.Value.Float()`: the payload as a float64 payload (a float32
payload is widened exactly). -/
def Value.getFloat : Value → Option Nat
  | .float k b => some (if k = RKind.Float32 then f32toF64 b else b)
  | _ => none

/-- Model of `reflect.Value.Complex()`: the payload as a complex128 payload pair. -/
def Value.getComplex : Value → Option (Nat × Nat)
  | .complex k re im =>
    some (if k = RKind.Complex64 then (f32toF64 re, f32toF64 im) else (re, im))
  | _ => none

/-- Model of `reflect.Value.String()` on a string-kind value. -/
def Value.getString : Value → Option String
  | .str s => some s
  | _ => none

/-- Model of `r.Zero(t)`: the zero value of a static type, by kind. -/
def zeroValue (t : RKind) : Value :=
  if isIntKind t then .int t 0
  else if isUintKind t then .uint t 0
  else match t with
  | .Bool => .bool false
  | .Float32 | .Float64 => .float t 0
  | .Complex64 | .Complex128 => .complex t 0 0
  | .String => .str ""
  | _ => .nilRef t

/-- Model of `reflect.Value.Convert(t)` restricted to the conversions the sampled
code can reach: within-family integer conversions wrap two's-complement
exactly, float conversions follow the widening/narrowing contract, complex
types convert among themselves, integers convert to strings as runes, and
conversion to an interface type boxes the value.  An impossible conversion
panics (`none`). -/
def convert (v : Value) (t : RKind) : Option Value :=
  if isIntKind t then
    match v with
    | .int _ i => some (.int t (wrapInt t i))
    | .uint _ n => some (.int t (wrapInt t n))
    | .float k b =>
      some (.int t (wrapInt t (f64toInt (if k = RKind.Float32 then f32toF64 b else b))))
    | _ => none
  else if isUintKind t then
    match v with
    | .int _ i => some (.uint t (i % (2 ^ kindWidth t : Int)).toNat)
    | .uint _ n => some (.uint t (wrapUint t n))
    | .float k b =>
      some (.uint t (wrapUint t (f64toInt (if k = RKind.Float32 then f32toF64 b else b)).toNat))
    | _ => none
  else match t with
  | .Bool =>
    match v with
    | .bool b => some (.bool b)
    | _ => none
  | .Float32 =>
    match v with
    | .float .Float32 b => some (.float .Float32 b)
    | .float _ b => some (.float .Float32 (f64toF32 b))
    | .int _ i => some (.float .Float32 (f64toF32 (intToF64 i)))
    | .uint _ n => some (.float .Float32 (f64toF32 (intToF64 n)))
    | _ => none
  | .Float64 =>
    match v with
    | .float .Float32 b => some (.float .Float64 (f32toF64 b))
    | .float _ b => some (.float .Float64 b)
    | .int _ i => some (.float .Float64 (intToF64 i))
    | .uint _ n => some (.float .Float64 (intToF64 n))
    | _ => none
  | .Complex64 =>
    match v with
    | .complex .Complex64 re im => some (.complex .Complex64 re im)
    | .complex _ re im => some (.complex .Complex64 (f64toF32 re) (f64toF32 im))
    | _ => none
  | .Complex128 =>
    match v with
    | .complex .Complex64 re im => some (.complex .Complex128 (f32toF64 re) (f32toF64 im))
    | .complex _ re im => some (.complex .Complex128 re im)
    | _ => none
  | .String =>
    match v with
    | .str s => some (.str s)
    | .int _ i => some (.str (intToRuneStr i))
    | .uint _ n => some (.str (intToRuneStr n))
    | _ => none
  | .Interface => some v
  | _ => if v.kindOf = some t then some v else none

/-- Modelled from the spec: `base.KindToCategory` groups kinds into the
assignment-dispatch categories — boolean, the signed-integer family, the
unsigned-integer family, floating point, complex, string; every other kind
stays its own category (the "unknown/interface" fallback). -/
def KindToCategory (k : RKind) : RKind :=
  if isIntKind k then .Int
  else if isUintKind k then .Uint
  else match k with
  | .Float32 | .Float64 => .Float64
  | .Complex64 | .Complex128 => .Complex128
  | k => k

/-- The runtime activation record (`Env`): an instruction pointer, the
owning compiled-code buffer (its entries are opaque tags here), the
addressable memory cells, the map objects, and an observation log used to
state evaluation-order properties of side-effecting expressions. -/
structure Env where
  IP : Nat
  Code : List Nat
  store : List Value
  maps : List (List (Value × Value))
  trace : List Nat
deriving Repr

/-- A `reflect.Value` as produced by a compiled expression closure: either a
plain value or an addressable cell of the environment's store. -/
inductive RVal where
  | v (x : Value)
  | ref (i : Nat)
deriving DecidableEq, Repr

/-- An effectful compiled expression closure (`func(*Env) r.Value`),
modelled by explicit state passing. -/
abbrev XFun := Env → RVal × Env

/-- A compiled statement.  Go's `Stmt` returns `(env.Code[env.IP], env)`;
here the returned next statement is represented by its index in the returned
environment's code buffer, and `none` models a runtime panic. -/
abbrev Stmt := Env → Option (Env × Nat)

/-- Read a `reflect.Value` as a value (an addressable one reads its cell). -/
def Env.asValue (env : Env) : RVal → Option Value
  | .v x => some x
  | .ref i => env.store[i]?

/-- Model of `SetBool` on an addressable location: panics (`none`) unless the
location is an addressable cell of `Bool` kind. -/
def Env.setBool (env : Env) (l : RVal) (b : Bool) : Option Env :=
  match l with
  | .ref i =>
    match env.store[i]? with
    | some (.bool _) => some {env with store := env.store.set i (.bool b)}
    | _ => none
  | .v _ => none

/-- Model of `SetInt`: stores an `int64`, truncating (wrapping) to the cell's kind. -/
def Env.setInt (env : Env) (l : RVal) (x : Int) : Option Env :=
  match l with
  | .ref i =>
    match env.store[i]? with
    | some (.int k _) => some {env with store := env.store.set i (.int k (wrapInt k x))}
    | _ => none
  | .v _ => none

/-- Model of `SetUint`: stores a `uint64`, wrapping to the cell's kind. -/
def Env.setUint (env : Env) (l : RVal) (x : Nat) : Option Env :=
  match l with
  | .ref i =>
    match env.store[i]? with
    | some (.uint k _) => some {env with store := env.store.set i (.uint k (wrapUint k x))}
    | _ => none
  | .v _ => none

/-- Model of `SetFloat`: stores a float64 payload, narrowing for a float32 cell. -/
def Env.setFloat (env : Env) (l : RVal) (b : Nat) : Option Env :=
  match l with
  | .ref i =>
    match env.store[i]? with
    | some (.float k _) =>
      some {env with store :=
        (env.store.set i (.float k (if k = RKind.Float32 then f64toF32 b else b)))}
    | _ => none
  | .v _ => none

/-- Model of `SetComplex`: stores a complex128 payload pair, narrowing for a
complex64 cell. -/
def Env.setComplex (env : Env) (l : RVal) (re im : Nat) : Option Env :=
  match l with
  | .ref i =>
    match env.store[i]? with
    | some (.complex k _ _) =>
      some {env with store :=
        (env.store.set i (.complex k (if k = RKind.Complex64 then f64toF32 re else re)
          (if k = RKind.Complex64 then f64toF32 im else im)))}
    | _ => none
  | .v _ => none

/-- Model of `SetString`. -/
def Env.setString (env : Env) (l : RVal) (s : String) : Option Env :=
  match l with
  | .ref i =>
    match env.store[i]? with
    | some (.str _) => some {env with store := env.store.set i (.str s)}
    | _ => none
  | .v _ => none

/-- Generic `Set` on an addressable location (the unknown-category path). -/
def Env.setGeneric (env : Env) (l : RVal) (x : Value) : Option Env :=
  match l with
  | .ref i =>
    match env.store[i]? with
    | some _ => some {env with store := env.store.set i x}
    | none => none
  | .v _ => none

/-- Association-list update used to model a map store. -/
def assocSet : List (Value × Value) → Value → Value → List (Value × Value)
  | [], k, x => [(k, x)]
  | (k', x') :: rest, k, x =>
    if k' = k then (k, x) :: rest else (k', x') :: assocSet rest k x

/-- Model of `obj.SetMapIndex(key, v)`: stores through a map value; panics (`none`)
if the object is not a live map. -/
def Env.setMapIndex (env : Env) (obj key : RVal) (x : Value) : Option Env :=
  match env.asValue obj with
  | some (.map m) =>
    match env.maps[m]? with
    | some entries =>
      match env.asValue key with
      | some k => some {env with maps := env.maps.set m (assocSet entries k x)}
      | none => none
    | none => none
  | _ => none

/-- The common tail every compiled assignment statement is built from (the
literal template of the quasiquoted code): perform the binding, then
`env.IP++; return env.Code[env.IP], env`. -/
def retStmt (bind : Env → Option Env) : Stmt := fun env =>
  match bind env with
  | none => none
  | some env1 => some ({env1 with IP := env1.IP + 1}, env1.IP + 1)

/-- A compiled, not-yet-executed assignable location (`Place`): the
container closure, the optional map-key closure (present exactly for
map-indexed places), and the location's static type. -/
structure Place where
  type : RKind
  pfun : XFun
  mapKey : Option XFun

/-- The `fun I` argument of `placeSetExpr`: a compiled expression closure
together with the static result type its dynamic Go type advertises (used by
the per-kind `fun.(func(*Env) T)` assertions). -/
structure FunI where
  kind : Option RKind
  f : XFun

/-- Modelled from the spec: `funAsX1` wraps any compiled expression closure
into the generic value-returning shape. -/
def funAsX1 (fn : FunI) : XFun := fn.f

/-- The compiler state the sampled functions touch: the compile-time code
buffer statements are appended to. -/
structure Comp where
  Code : List Stmt

/-- The compile-time constant preparation of `placeSetConst`:
`v := r.ValueOf(val); if ValueType(v) == nil { v = r.Zero(t) } else
{ v = v.Convert(t) }` — the conversion happens here, once, at compile time. -/
def placeConstValue (val : Value) (t : RKind) : Option Value :=
  match ValueType val with
  | none => some (zeroValue t)
  | some _ => convert val t

/-- Model of `Comp.placeSetConst`: compiles `place = constant`.  The constant is
converted at compile time; a map-indexed place gets the dedicated
left-to-right container/key path; otherwise dispatch is on the type
category, each category extracting the payload at compile time and storing
through its specialized setter.  `none` models the compile-time panics
(impossible conversion, unimplemented category extraction). -/
def Comp.placeSetConst (c : Comp) (place : Place) (val : Value) : Option Comp :=
  let t := place.type
  match placeConstValue val t with
  | none => none
  | some v =>
    let lhs := place.pfun
    match place.mapKey with
    | some mapkey =>
      some {c with Code := c.Code ++ [retStmt (fun env =>
        let p1 := lhs env
        let p2 := mapkey p1.2
        Env.setMapIndex p2.2 p1.1 p2.1 v)]}
    | none =>
      match KindToCategory t with
      | .Bool =>
        match v.getBool with
        | none => none
        | some b =>
          some {c with Code := c.Code ++ [retStmt (fun env =>
            let p := lhs env
            Env.setBool p.2 p.1 b)]}
      | .Int =>
        match v.getInt with
        | none => none
        | some x =>
          some {c with Code := c.Code ++ [retStmt (fun env =>
            let p := lhs env
            Env.setInt p.2 p.1 x)]}
      | .Uint =>
        match v.getUint with
        | none => none
        | some x =>
          some {c with Code := c.Code ++ [retStmt (fun env =>
            let p := lhs env
            Env.setUint p.2 p.1 x)]}
      | .Float64 =>
        match v.getFloat with
        | none => none
        | some b =>
          some {c with Code := c.Code ++ [retStmt (fun env =>
            let p := lhs env
            Env.setFloat p.2 p.1 b)]}
      | .Complex128 =>
        match v.getComplex with
        | none => none
        | some z =>
          some {c with Code := c.Code ++ [retStmt (fun env =>
            let p := lhs env
            Env.setComplex p.2 p.1 z.1 z.2)]}
      | .String =>
        match v.getString with
        | none => none
        | some s =>
          some {c with Code := c.Code ++ [retStmt (fun env =>
            let p := lhs env
            Env.setString p.2 p.1 s)]}
      | _ =>
        some {c with Code := c.Code ++ [retStmt (fun env =>
          let p := lhs env
          Env.setGeneric p.2 p.1 v)]}

/-- Model of `Comp.placeSetExpr`: compiles `place = expression`.  A map-indexed place
evaluates container, key, then value, converts the value to the static type
when needed, and stores; a plain place dispatches on the static type's kind,
each kind asserting the matching typed closure at compile time; the fallback
(unknown type) path checks/converts the value at execution time, replacing
an absent value with the location's zero value. -/
def Comp.placeSetExpr (c : Comp) (place : Place) (fn : FunI) : Option Comp :=
  let t := place.type
  let lhs := place.pfun
  match place.mapKey with
  | some mapkey =>
    let rhs := funAsX1 fn
    some {c with Code := c.Code ++ [retStmt (fun env =>
      let p1 := lhs env
      let p2 := mapkey p1.2
      let p3 := rhs p2.2
      match Env.asValue p3.2 p3.1 with
      | none => none
      | some val =>
        match val.kindOf with
        | none => none
        | some tk =>
          match (if tk ≠ t then convert val t else some val) with
          | none => none
          | some val => Env.setMapIndex p3.2 p1.1 p2.1 val)]}
  | none =>
    match t with
    | .Bool =>
      if fn.kind = some RKind.Bool then
        some {c with Code := c.Code ++ [retStmt (fun env =>
          let p1 := lhs env
          let p2 := fn.f p1.2
          match Env.asValue p2.2 p2.1 with
          | none => none
          | some value =>
            match value.getBool with
            | none => none
            | some b => Env.setBool p2.2 p1.1 b)]}
      else none
    | .Int | .Int8 | .Int16 | .Int32 | .Int64 =>
      if fn.kind = some t then
        some {c with Code := c.Code ++ [retStmt (fun env =>
          let p1 := lhs env
          let p2 := fn.f p1.2
          match Env.asValue p2.2 p2.1 with
          | none => none
          | some value =>
            match value.getInt with
            | none => none
            | some x => Env.setInt p2.2 p1.1 x)]}
      else none
    | .Uint | .Uint8 | .Uint16 | .Uint32 | .Uint64 | .Uintptr =>
      if fn.kind = some t then
        some {c with Code := c.Code ++ [retStmt (fun env =>
          let p1 := lhs env
          let p2 := fn.f p1.2
          match Env.asValue p2.2 p2.1 with
          | none => none
          | some value =>
            match value.getUint with
            | none => none
            | some x => Env.setUint p2.2 p1.1 x)]}
      else none
    | .Float32 | .Float64 =>
      if fn.kind = some t then
        some {c with Code := c.Code ++ [retStmt (fun env =>
          let p1 := lhs env
          let p2 := fn.f p1.2
          match Env.asValue p2.2 p2.1 with
          | none => none
          | some value =>
            match value.getFloat with
            | none => none
            | some b => Env.setFloat p2.2 p1.1 b)]}
      else none
    | .Complex64 | .Complex128 =>
      if fn.kind = some t then
        some {c with Code := c.Code ++ [retStmt (fun env =>
          let p1 := lhs env
          let p2 := fn.f p1.2
          match Env.asValue p2.2 p2.1 with
          | none => none
          | some value =>
            match value.getComplex with
            | none => none
            | some z => Env.setComplex p2.2 p1.1 z.1 z.2)]}
      else none
    | .String =>
      if fn.kind = some RKind.String then
        some {c with Code := c.Code ++ [retStmt (fun env =>
          let p1 := lhs env
          let p2 := fn.f p1.2
          match Env.asValue p2.2 p2.1 with
          | none => none
          | some value =>
            match value.getString with
            | none => none
            | some s => Env.setString p2.2 p1.1 s)]}
      else none
    | _ =>
      let rhs := funAsX1 fn
      let zero := zeroValue t
      some {c with Code := c.Code ++ [retStmt (fun env =>
        let p1 := lhs env
        let p2 := rhs p1.2
        match Env.asValue p2.2 p2.1 with
        | none => none
        | some value =>
          match (if value = Value.invalid ∨ value = Value.noneV then some zero
                 else if value.kindOf ≠ some t then convert value t
                 else some value) with
          | none => none
          | some value => Env.setGeneric p2.2 p1.1 value)]}

/-- Run the most recently compiled statement of a compilation result on an
environment. -/
def runCompiled (res : Option Comp) (env : Env) : Option (Env × Nat) :=
  match res with
  | some cc =>
    match cc.Code.getLast? with
    | some s => s env
    | none => none
  | none => none

/-- A plain-variable place over store cell `L`. -/
def plainPlace (L : Nat) (t : RKind) : Place :=
  ⟨t, fun e => (.ref L, e), none⟩

/-- An expression closure with an observable side effect: it appends `tag`
to the environment's log and yields `r`. -/
def logFun (tag : Nat) (r : RVal) : XFun :=
  fun env => (r, {env with trace := env.trace ++ [tag]})

/-- A map-indexed place whose container and key expressions log `a` and `b`
respectively; the container yields map object `m`, the key yields `key`. -/
def mapPlace (t : RKind) (a b m : Nat) (key : Value) : Place :=
  ⟨t, logFun a (.v (.map m)), some (logFun b (.v key))⟩

/-- The compiled statement of `res`, run on `env`, leaves the log `tr`. -/
def TraceBecomes (res : Option Comp) (env : Env) (tr : List Nat) : Prop :=
  ∃ out, runCompiled res env = some out ∧ out.1.trace = tr

/-- The compiled statement of `res` stores exactly `w` into cell `L` when
executed against any environment whose cell `L` is freshly zero-valued at
type `t`, and advances to the next statement. -/
def StoresExactly (res : Option Comp) (L : Nat) (t : RKind) (w : Value) : Prop :=
  ∀ env : Env, env.store[L]? = some (zeroValue t) →
    ∃ out, runCompiled res env = some out ∧ out.2 = env.IP + 1 ∧
      out.1.store[L]? = some w

/-- The compiled statement of `res` stores exactly `w` under `key` in map
object `m`, for every environment in which that map is live. -/
def MapStoresExactly (res : Option Comp) (m : Nat) (key w : Value) : Prop :=
  ∀ env entries, env.maps[m]? = some entries →
    ∃ out, runCompiled res env = some out ∧
      out.1.maps[m]? = some (assocSet entries key w)

/-- Two environment states agreeing on instruction pointer and owning code
buffer. -/
def SameIC (e e1 : Env) : Prop :=
  e1.IP = e.IP ∧ e1.Code = e.Code

/-- An expression closure that leaves the instruction pointer and the owning
code buffer alone (it may do anything else to the environment). -/
def PreservesIC (f : XFun) : Prop :=
  ∀ e, SameIC e (f e).2

/-- The threading contract of a compiled statement: on every environment it
completes on, it increments the instruction pointer by exactly one, returns
the code-buffer entry at the new instruction pointer as the next statement,
and returns the same (in particular, same-code-buffer) environment. -/
def StmtSteps (s : Stmt) : Prop :=
  ∀ env env1 i, s env = some (env1, i) →
    env1.IP = env.IP + 1 ∧ i = env1.IP ∧ env1.Code = env.Code

/-- Every statement a compilation step appends to the buffer satisfies the
threading contract `StmtSteps`. -/
def AppendsStepping (res : Option Comp) (old : Comp) : Prop :=
  ∀ cc, res = some cc → ∀ s, cc.Code = old.Code ++ [s] → StmtSteps s

end Fast

/- ===================================================================
   Theorems
   =================================================================== -/

/-- Claim C6: for every code buffer `c`, operand `x` and destination `dst`,
`Inst2(ASSIGN, x, x)` leaves `c` unchanged (a two-operand assign whose source
and destination encode to the same operand is always elided), and
`Inst1(NOP, dst)` leaves `c` unchanged (the designated no-op marker is elided
entirely); applied to an empty buffer each yields a buffer of length 0. -/
theorem c6_nop_and_self_assign_elided :
    ∀ (c : Jit.Code) (x dst : Jit.Expr),
      (Jit.Code.Inst2 c Jit.ASSIGN x x).2 = c ∧
      (Jit.Code.Inst1 c Jit.NOP dst).2 = c ∧
      ((Jit.Code.Inst2 ([] : Jit.Code) Jit.ASSIGN x x).2).length = 0 ∧
      ((Jit.Code.Inst1 ([] : Jit.Code) Jit.NOP dst).2).length = 0 := by
  have h2 : ∀ (c : Jit.Code) (x : Jit.Expr), (Jit.Code.Inst2 c Jit.ASSIGN x x).2 = c := by
    intro c x
    unfold Jit.Code.Inst2
    cases h : Jit.asmArg x <;> simp [h]
  have h1 : ∀ (c : Jit.Code) (dst : Jit.Expr), (Jit.Code.Inst1 c Jit.NOP dst).2 = c := by
    intro c dst
    unfold Jit.Code.Inst1
    simp
  intro c x dst
  exact ⟨h2 c x, h1 c dst, by rw [h2]; rfl, by rw [h1]; rfl⟩

/-- Claim C7: the operand encoder `asmArg` returns a token exactly for the two
already-lowered operand shapes — a raw instruction token is returned as is
and a soft register encodes as its id — and raises a fatal internal error on
every unlowered expression node (`*Expr1`, `*Expr2`). -/
theorem c7_asmArg_operand_contract :
    ∀ (a : Jit.AsmCode) (r : Jit.SoftReg) (n1 n2 : Nat),
      Jit.asmArg (Jit.Expr.asmcode a) = Except.ok a ∧
      Jit.asmArg (Jit.Expr.softreg r) = Except.ok (Jit.AsmCode.rid r.id) ∧
      isErrE (Jit.asmArg (Jit.Expr.expr1 n1)) = true ∧
      isErrE (Jit.asmArg (Jit.Expr.expr2 n2)) = true :=
  fun _ _ _ _ => ⟨rfl, rfl, rfl, rfl⟩

/-- Claim C10: package-level `FuncOf(in, out, variadic)` is exactly
`MethodOf(nil, in, out, variadic)`, and `Universe.FuncOf` is exactly
`Universe.MethodOf` with no receiver — a function type is definitionally a
method type with no receiver. -/
theorem c10_funcof_is_receiverless_methodof :
    (∀ (tin tout : List (Option XRef.XType)) (vd : Bool),
      XRef.FuncOf tin tout vd = XRef.MethodOf none tin tout vd) ∧
    (∀ (v : Nat) (tin tout : List (Option XRef.XType)) (vd : Bool),
      XRef.universeFuncOf v tin tout vd = XRef.universeMethodOf v none tin tout vd) :=
  ⟨fun _ _ _ => rfl, fun _ _ _ _ => rfl⟩

/-- Helper: a successful `Universe.MethodOf` stamps the universe it was
called on into the built type. -/
theorem universeMethodOf_ok_univ (v : Nat) (recv : Option XRef.XType)
    (tin tout : List (Option XRef.XType)) (vd : Bool) (t : XRef.XType)
    (h : XRef.universeMethodOf v recv tin tout vd = Except.ok t) : t.univ = v := by
  unfold XRef.universeMethodOf at h
  cases h1 : XRef.toGoTuple tin with
  | error e => simp only [h1] at h; exact Except.noConfusion h
  | ok gin =>
  simp only [h1] at h
  cases h2 : XRef.toGoTuple tout with
  | error e => simp only [h2] at h; exact Except.noConfusion h
  | ok gout =>
  simp only [h2] at h
  cases h3 : XRef.toReflectTypes tin with
  | error e => simp only [h3] at h; exact Except.noConfusion h
  | ok rin =>
  simp only [h3] at h
  cases h4 : XRef.toReflectTypes tout with
  | error e => simp only [h4] at h; exact Except.noConfusion h
  | ok rout =>
  simp only [h4] at h
  cases recv with
  | some rc =>
    simp only [XRef.toGoParam] at h
    injection h with h
    subst h
    rfl
  | none =>
    injection h with h
    subst h
    rfl

/-- Helper: converting a list whose head is null fails, as a method call on
a nil `Type` interface panics — so no call with a null leading input or
output type ever builds a type. -/
theorem toGoTuple_cons_none (ts : List (Option XRef.XType)) (gs : List XRef.GType)
    (h : XRef.toGoTuple (none :: ts) = Except.ok gs) : False := by
  simp only [XRef.toGoTuple, XRef.toGoParam] at h
  exact Except.noConfusion h

/-- Claim C5: the universe that owns the type freshly built by package-level
`MethodOf` is chosen by this preference order: the receiver's universe when
the receiver is non-nil; otherwise the universe of the first non-null input
type; otherwise the universe of the first non-null output type; otherwise
the default global universe.  Every call that actually builds a type has
all-non-null input and output lists (a null element makes the build panic
before a type exists), and there the source's `in[0] != nil` / `out[0] !=
nil` selection coincides with the first non-null element. -/
theorem c5_universe_preference_order (recv : Option XRef.XType)
    (tin tout : List (Option XRef.XType)) (vd : Bool) (t : XRef.XType)
    (h : XRef.MethodOf recv tin tout vd = Except.ok t) :
    t.univ = XRef.methodOfUniverseSpec recv tin tout := by
  have h1 : t.univ = XRef.methodOfUniverse recv tin tout :=
    universeMethodOf_ok_univ _ recv tin tout vd t h
  rw [h1]
  unfold XRef.MethodOf XRef.universeMethodOf at h
  cases h1t : XRef.toGoTuple tin with
  | error e => simp only [h1t] at h; exact Except.noConfusion h
  | ok gin =>
  simp only [h1t] at h
  cases h2t : XRef.toGoTuple tout with
  | error e => simp only [h2t] at h; exact Except.noConfusion h
  | ok gout =>
  cases recv with
  | some r => rfl
  | none =>
    cases tin with
    | nil =>
      cases tout with
      | nil => rfl
      | cons x ts =>
        cases x with
        | some t0 => rfl
        | none => exact (toGoTuple_cons_none ts gout h2t).elim
    | cons x ts =>
      cases x with
      | some t0 => rfl
      | none => exact (toGoTuple_cons_none ts gin h1t).elim

/-- Witness for C5: a concrete receiverless call whose first input type
lives in universe 5 builds its type in universe 5, matching the stated
preference order. -/
theorem c5_universe_preference_order_witness :
    (⟨5, XRef.GType.signature none [XRef.GType.basic 0] [] false,
      XRef.RType.func [XRef.RType.basic RKind.Int 0] [] false⟩ : XRef.XType).univ =
      XRef.methodOfUniverseSpec none
        [some ⟨5, XRef.GType.basic 0, XRef.RType.basic RKind.Int 0⟩] [] :=
  c5_universe_preference_order none
    [some ⟨5, XRef.GType.basic 0, XRef.RType.basic RKind.Int 0⟩] [] false _ rfl

/-- Claim C2: each function-shaped accessor applied to a type whose kind is
not `Func` signals an error immediately; and on a function type the index
accessors `In(i)` / `Out(i)` signal an error whenever `i` lies outside
`[0, NumIn())` respectively `[0, NumOut())`. -/
theorem c2_accessors_require_func_kind (t : XRef.XType) (i : Int) :
    (t.kind ≠ RKind.Func →
      isErrE (t.In i) = true ∧ isErrE (t.Out i) = true ∧ isErrE t.NumIn = true ∧
      isErrE t.NumOut = true ∧ isErrE t.Recv = true ∧ isErrE t.IsVariadic = true ∧
      isErrE t.IsMethod = true) ∧
    (∀ recv params results vd,
      t.gtype = XRef.GType.signature recv params results vd →
      ((i < 0 ∨ (params.length : Int) ≤ i) → isErrE (t.In i) = true) ∧
      ((i < 0 ∨ (results.length : Int) ≤ i) → isErrE (t.Out i) = true)) := by
  have hnone : ∀ (l : List XRef.GType), (i < 0 ∨ (l.length : Int) ≤ i) →
      XRef.listAt l i = none := by
    intro l hi
    unfold XRef.listAt
    rcases hi with hi | hi
    · simp [hi]
    · have h0 : ¬ i < 0 := by omega
      simp only [h0, if_false]
      exact List.get?_eq_none.mpr (by omega)
  constructor
  · intro h
    refine ⟨?_, ?_, ?_, ?_, ?_, ?_, ?_⟩ <;>
      simp [XRef.XType.In, XRef.XType.Out, XRef.XType.NumIn, XRef.XType.NumOut,
        XRef.XType.Recv, XRef.XType.IsVariadic, XRef.XType.IsMethod, h, isErrE]
  · intro recv params results vd hg
    constructor
    · intro hi
      by_cases hk : t.kind = RKind.Func
      · simp [XRef.XType.In, hk, XRef.XType.underlying, hg, hnone params hi, isErrE]
      · simp [XRef.XType.In, hk, isErrE]
    · intro hi
      by_cases hk : t.kind = RKind.Func
      · simp [XRef.XType.Out, hk, XRef.XType.underlying, hg, hnone results hi, isErrE]
      · simp [XRef.XType.Out, hk, isErrE]

/-- Witness for C2: `IsMethod` on a bool-kind type errors, and `In(5)` on a
unary function type errors. -/
theorem c2_accessors_require_func_kind_witness :
    isErrE ((⟨0, XRef.GType.basic 0, XRef.RType.basic RKind.Bool 0⟩ : XRef.XType).IsMethod)
      = true ∧
    isErrE ((⟨0, XRef.GType.signature none [XRef.GType.basic 1] [] false,
      XRef.RType.func [XRef.RType.basic RKind.Int 0] [] false⟩ : XRef.XType).In 5) = true := by
  constructor
  · exact ((c2_accessors_require_func_kind
      ⟨0, XRef.GType.basic 0, XRef.RType.basic RKind.Bool 0⟩ 0).1 (by decide)).2.2.2.2.2.2
  · exact (((c2_accessors_require_func_kind
      ⟨0, XRef.GType.signature none [XRef.GType.basic 1] [] false,
        XRef.RType.func [XRef.RType.basic RKind.Int 0] [] false⟩ 5).2
      none [XRef.GType.basic 1] [] false rfl).1 (by decide))

/-- Claim C3: on a method type, `In(i)` reads runtime-parameter position `i+1`
of the underlying runtime parameter list (the receiver occupying position
0); on a receiverless function type it reads runtime position `i`. -/
theorem c3_in_applies_receiver_offset (u : Nat) (rcv : XRef.GType)
    (params results : List XRef.GType) (vd : Bool)
    (rin rout : List XRef.RType) (rvd : Bool) (i : Nat)
    (va : XRef.GType) (rt rt0 : XRef.RType) :
    (params[i]? = some va → rin[i + 1]? = some rt →
      XRef.XType.In ⟨u, XRef.GType.signature (some rcv) params results vd,
        XRef.RType.func rin rout rvd⟩ (i : Int) =
        Except.ok (XRef.MakeType u va rt)) ∧
    (params[i]? = some va → rin[i]? = some rt0 →
      XRef.XType.In ⟨u, XRef.GType.signature none params results vd,
        XRef.RType.func rin rout rvd⟩ (i : Int) =
        Except.ok (XRef.MakeType u va rt0)) := by
  have h0 : ¬ ((i : Int) < 0) := by omega
  have h1 : ¬ ((i : Int) + 1 < 0) := by omega
  have h2 : ((i : Int) + 1).toNat = i + 1 := by omega
  have h3 : ((i : Int)).toNat = i := by omega
  constructor
  · intro hp hr
    simp [XRef.XType.In, XRef.XType.kind, XRef.rtypeKind, XRef.XType.underlying,
      XRef.listAt, XRef.rtypeIn, h0, h1, h2, h3, hp, hr]
  · intro hp hr
    simp [XRef.XType.In, XRef.XType.kind, XRef.rtypeKind, XRef.XType.underlying,
      XRef.listAt, XRef.rtypeIn, h0, h3, hp, hr]

/-- Witness for C3: on a one-parameter method type, `In(0)` reads runtime
position 1 (position 0 being the receiver). -/
theorem c3_in_applies_receiver_offset_witness :
    XRef.XType.In ⟨0, XRef.GType.signature (some (XRef.GType.basic 9))
        [XRef.GType.basic 1] [] false,
      XRef.RType.func [XRef.RType.basic RKind.Struct 0, XRef.RType.basic RKind.Int 0]
        [] false⟩ ((0 : Nat) : Int) =
      Except.ok (XRef.MakeType 0 (XRef.GType.basic 1) (XRef.RType.basic RKind.Int 0)) :=
  (c3_in_applies_receiver_offset 0 (XRef.GType.basic 9) [XRef.GType.basic 1] [] false
    [XRef.RType.basic RKind.Struct 0, XRef.RType.basic RKind.Int 0] [] false 0
    (XRef.GType.basic 1) (XRef.RType.basic RKind.Int 0) (XRef.RType.basic RKind.Struct 0)).1
    rfl rfl

/-- Helper: a successful `toGoTuple` preserves the list length. -/
theorem toGoTuple_length (ts : List (Option XRef.XType)) (gs : List XRef.GType)
    (h : XRef.toGoTuple ts = Except.ok gs) : gs.length = ts.length := by
  induction ts generalizing gs with
  | nil =>
    unfold XRef.toGoTuple at h
    injection h with h
    simp [← h]
  | cons a as ih =>
    unfold XRef.toGoTuple at h
    cases h1 : XRef.toGoParam a with
    | error e => simp only [h1] at h; exact Except.noConfusion h
    | ok g =>
      simp only [h1] at h
      cases h2 : XRef.toGoTuple as with
      | error e => simp only [h2] at h; exact Except.noConfusion h
      | ok gs1 =>
        simp only [h2] at h
        injection h with h
        simp [← h, ih gs1 h2]

/-- Helper: a successful `toReflectTypes` preserves the list length. -/
theorem toReflectTypes_length (ts : List (Option XRef.XType)) (rs : List XRef.RType)
    (h : XRef.toReflectTypes ts = Except.ok rs) : rs.length = ts.length := by
  induction ts generalizing rs with
  | nil =>
    unfold XRef.toReflectTypes at h
    injection h with h
    simp [← h]
  | cons a as ih =>
    unfold XRef.toReflectTypes at h
    cases h1 : XRef.toReflectType a with
    | error e => simp only [h1] at h; exact Except.noConfusion h
    | ok r =>
      simp only [h1] at h
      cases h2 : XRef.toReflectTypes as with
      | error e => simp only [h2] at h; exact Except.noConfusion h
      | ok rs1 =>
        simp only [h2] at h
        injection h with h
        simp [← h, ih rs1 h2]

/-- Claim C4: `Universe.MethodOf` with a non-nil receiver builds a type whose
runtime parameter list is the receiver prepended to the inputs (runtime
parameter count `len(in) + 1`) while the declared count `NumIn()` equals
`len(in)` — the receiver is excluded from the declared parameter count. -/
theorem c4_method_receiver_prepended (v : Nat) (rc : XRef.XType)
    (tin tout : List (Option XRef.XType)) (vd : Bool) (t : XRef.XType)
    (h : XRef.universeMethodOf v (some rc) tin tout vd = Except.ok t) :
    t.NumIn = Except.ok tin.length ∧
    XRef.rtypeNumIn t.rtype = some (tin.length + 1) ∧
    (∃ rin rout, XRef.toReflectTypes tin = Except.ok rin ∧
      XRef.toReflectTypes tout = Except.ok rout ∧
      t.rtype = XRef.RType.func (rc.rtype :: rin) rout vd) := by
  unfold XRef.universeMethodOf at h
  cases h1 : XRef.toGoTuple tin with
  | error e => simp only [h1] at h; exact Except.noConfusion h
  | ok gin =>
  simp only [h1] at h
  cases h2 : XRef.toGoTuple tout with
  | error e => simp only [h2] at h; exact Except.noConfusion h
  | ok gout =>
  simp only [h2] at h
  cases h3 : XRef.toReflectTypes tin with
  | error e => simp only [h3] at h; exact Except.noConfusion h
  | ok rin =>
  simp only [h3] at h
  cases h4 : XRef.toReflectTypes tout with
  | error e => simp only [h4] at h; exact Except.noConfusion h
  | ok rout =>
  simp only [h4, XRef.toGoParam] at h
  injection h with h
  subst h
  refine ⟨?_, ?_, rin, rout, rfl, rfl, rfl⟩
  · simp [XRef.XType.NumIn, XRef.MakeType, XRef.XType.kind, XRef.rtypeKind,
      XRef.XType.underlying, XRef.reflectFuncOf]
    exact toGoTuple_length tin gin h1
  · simp [XRef.rtypeNumIn, XRef.MakeType, XRef.reflectFuncOf]
    exact toReflectTypes_length tin rin h3

/-- Helper: updating a present list cell makes lookup at that index return
the update. -/
theorem get?_set_self {α : Type} (l : List α) (i : Nat) (x y : α)
    (h : l[i]? = some x) : (l.set i y)[i]? = some y := by
  induction l generalizing i with
  | nil => simp at h
  | cons a as ih =>
    cases i with
    | zero => simp
    | succ n => simpa using ih n (by simpa using h)

/-- Helper: transitivity of instruction-pointer/code-buffer agreement. -/
theorem SameIC_trans {a b c : Fast.Env} (h1 : Fast.SameIC a b) (h2 : Fast.SameIC b c) :
    Fast.SameIC a c :=
  ⟨h2.1.trans h1.1, h2.2.trans h1.2⟩

/-- Helper: `SetBool` only rewrites the store. -/
theorem setBool_sameIC (env : Fast.Env) (l : Fast.RVal) (b : Bool) (env1 : Fast.Env)
    (h : Fast.Env.setBool env l b = some env1) : Fast.SameIC env env1 := by
  cases l with
  | v x => simp [Fast.Env.setBool] at h
  | ref i =>
    cases hs : env.store[i]? with
    | none => simp [Fast.Env.setBool, hs] at h
    | some cell =>
      cases cell
      case bool b0 =>
        simp only [Fast.Env.setBool, hs] at h
        injection h with h
        subst h
        exact ⟨rfl, rfl⟩
      all_goals simp [Fast.Env.setBool, hs] at h

/-- Helper: `SetInt` only rewrites the store. -/
theorem setInt_sameIC (env : Fast.Env) (l : Fast.RVal) (x : Int) (env1 : Fast.Env)
    (h : Fast.Env.setInt env l x = some env1) : Fast.SameIC env env1 := by
  cases l with
  | v y => simp [Fast.Env.setInt] at h
  | ref i =>
    cases hs : env.store[i]? with
    | none => simp [Fast.Env.setInt, hs] at h
    | some cell =>
      cases cell
      case int k i0 =>
        simp only [Fast.Env.setInt, hs] at h
        injection h with h
        subst h
        exact ⟨rfl, rfl⟩
      all_goals simp [Fast.Env.setInt, hs] at h

/-- Helper: `SetUint` only rewrites the store. -/
theorem setUint_sameIC (env : Fast.Env) (l : Fast.RVal) (x : Nat) (env1 : Fast.Env)
    (h : Fast.Env.setUint env l x = some env1) : Fast.SameIC env env1 := by
  cases l with
  | v y => simp [Fast.Env.setUint] at h
  | ref i =>
    cases hs : env.store[i]? with
    | none => simp [Fast.Env.setUint, hs] at h
    | some cell =>
      cases cell
      case uint k n0 =>
        simp only [Fast.Env.setUint, hs] at h
        injection h with h
        subst h
        exact ⟨rfl, rfl⟩
      all_goals simp [Fast.Env.setUint, hs] at h

/-- Helper: `SetFloat` only rewrites the store. -/
theorem setFloat_sameIC (env : Fast.Env) (l : Fast.RVal) (x : Nat) (env1 : Fast.Env)
    (h : Fast.Env.setFloat env l x = some env1) : Fast.SameIC env env1 := by
  cases l with
  | v y => simp [Fast.Env.setFloat] at h
  | ref i =>
    cases hs : env.store[i]? with
    | none => simp [Fast.Env.setFloat, hs] at h
    | some cell =>
      cases cell
      case float k b0 =>
        simp only [Fast.Env.setFloat, hs] at h
        injection h with h
        subst h
        exact ⟨rfl, rfl⟩
      all_goals simp [Fast.Env.setFloat, hs] at h

/-- Helper: `SetComplex` only rewrites the store. -/
theorem setComplex_sameIC (env : Fast.Env) (l : Fast.RVal) (re im : Nat) (env1 : Fast.Env)
    (h : Fast.Env.setComplex env l re im = some env1) : Fast.SameIC env env1 := by
  cases l with
  | v y => simp [Fast.Env.setComplex] at h
  | ref i =>
    cases hs : env.store[i]? with
    | none => simp [Fast.Env.setComplex, hs] at h
    | some cell =>
      cases cell
      case complex k r0 i0 =>
        simp only [Fast.Env.setComplex, hs] at h
        injection h with h
        subst h
        exact ⟨rfl, rfl⟩
      all_goals simp [Fast.Env.setComplex, hs] at h

/-- Helper: `SetString` only rewrites the store. -/
theorem setString_sameIC (env : Fast.Env) (l : Fast.RVal) (s : String) (env1 : Fast.Env)
    (h : Fast.Env.setString env l s = some env1) : Fast.SameIC env env1 := by
  cases l with
  | v y => simp [Fast.Env.setString] at h
  | ref i =>
    cases hs : env.store[i]? with
    | none => simp [Fast.Env.setString, hs] at h
    | some cell =>
      cases cell
      case str s0 =>
        simp only [Fast.Env.setString, hs] at h
        injection h with h
        subst h
        exact ⟨rfl, rfl⟩
      all_goals simp [Fast.Env.setString, hs] at h

/-- Helper: generic `Set` only rewrites the store. -/
theorem setGeneric_sameIC (env : Fast.Env) (l : Fast.RVal) (x : Fast.Value) (env1 : Fast.Env)
    (h : Fast.Env.setGeneric env l x = some env1) : Fast.SameIC env env1 := by
  cases l with
  | v y => simp [Fast.Env.setGeneric] at h
  | ref i =>
    cases hs : env.store[i]? with
    | none => simp [Fast.Env.setGeneric, hs] at h
    | some cell =>
      simp only [Fast.Env.setGeneric, hs] at h
      injection h with h
      subst h
      exact ⟨rfl, rfl⟩

/-- Helper: `SetMapIndex` only rewrites the map objects. -/
theorem setMapIndex_sameIC (env : Fast.Env) (obj key : Fast.RVal) (x : Fast.Value)
    (env1 : Fast.Env) (h : Fast.Env.setMapIndex env obj key x = some env1) :
    Fast.SameIC env env1 := by
  unfold Fast.Env.setMapIndex at h
  cases ho : env.asValue obj with
  | none => simp only [ho] at h; exact Option.noConfusion h
  | some ov =>
    simp only [ho] at h
    cases ov
    case map m =>
      cases hm : env.maps[m]? with
      | none => simp only [hm] at h; exact Option.noConfusion h
      | some entries =>
        simp only [hm] at h
        cases hk : env.asValue key with
        | none => simp only [hk] at h; exact Option.noConfusion h
        | some kv =>
          simp only [hk] at h
          injection h with h
          subst h
          exact ⟨rfl, rfl⟩
    all_goals exact Option.noConfusion h

/-- Helper: a statement built from the common template satisfies the
threading contract as soon as its binding step preserves the instruction
pointer and the code buffer. -/
theorem retStmt_steps (bind : Fast.Env → Option Fast.Env)
    (hb : ∀ e e1, bind e = some e1 → Fast.SameIC e e1) :
    Fast.StmtSteps (Fast.retStmt bind) := by
  intro env env1 i h
  unfold Fast.retStmt at h
  cases hb1 : bind env with
  | none => simp only [hb1] at h; exact Option.noConfusion h
  | some e1 =>
    simp only [hb1, Option.some.injEq, Prod.mk.injEq] at h
    obtain ⟨he, hi⟩ := h
    obtain ⟨hIP, hCode⟩ := hb env e1 hb1
    subst he
    subst hi
    exact ⟨by simp [hIP], rfl, by simp [hCode]⟩

/-- Helper: a failed compilation appends nothing. -/
theorem appendsStepping_none (c : Fast.Comp) : Fast.AppendsStepping none c := by
  intro cc hcc
  exact Option.noConfusion hcc

/-- Helper: running the last compiled statement after a single append runs
that statement. -/
theorem runCompiled_concat (c : Fast.Comp) (s : Fast.Stmt) (env : Fast.Env) :
    Fast.runCompiled (some {c with Code := c.Code ++ [s]}) env = s env := by
  simp [Fast.runCompiled, List.getLast?_concat]

/-- Helper: a guarded append (the per-kind typed-closure assertion) either
appends one templated statement or fails compiling. -/
theorem appendsStepping_guard (c : Fast.Comp) (cond : Prop) [Decidable cond]
    (bind : Fast.Env → Option Fast.Env)
    (hb : ∀ e e1, bind e = some e1 → Fast.SameIC e e1) :
    Fast.AppendsStepping
      (if cond then some {c with Code := c.Code ++ [Fast.retStmt bind]} else none) c := by
  split
  · intro cc hcc s hs
    injection hcc with hcc
    subst hcc
    have hs2 : c.Code ++ [Fast.retStmt bind] = c.Code ++ [s] := hs
    have h1 : some (Fast.retStmt bind) = some s := by
      rw [← List.getLast?_concat c.Code, hs2, List.getLast?_concat]
    injection h1 with h1
    subst h1
    exact retStmt_steps bind hb
  · intro cc hcc
    exact Option.noConfusion hcc

/-- Helper: appending one templated statement yields a buffer whose new
statement satisfies the threading contract. -/
theorem appendsStepping_retStmt (c : Fast.Comp) (bind : Fast.Env → Option Fast.Env)
    (hb : ∀ e e1, bind e = some e1 → Fast.SameIC e e1) :
    Fast.AppendsStepping (some {c with Code := c.Code ++ [Fast.retStmt bind]}) c := by
  intro cc hcc s hs
  injection hcc with hcc
  subst hcc
  have hs2 : c.Code ++ [Fast.retStmt bind] = c.Code ++ [s] := hs
  have h1 : some (Fast.retStmt bind) = some s := by
    rw [← List.getLast?_concat c.Code, hs2, List.getLast?_concat]
  injection h1 with h1
  subst h1
  exact retStmt_steps bind hb

/-- Witness for C4: `MethodOf(recvType, [intType], [], false)` has declared
count 1 and runtime parameter count 2. -/
theorem c4_method_receiver_prepended_witness :
    XRef.XType.NumIn ⟨7, XRef.GType.signature (some (XRef.GType.basic 3))
        [XRef.GType.basic 1] [] false,
      XRef.RType.func [XRef.RType.basic RKind.Struct 0, XRef.RType.basic RKind.Int 0]
        [] false⟩ = Except.ok 1 ∧
    XRef.rtypeNumIn (XRef.RType.func
      [XRef.RType.basic RKind.Struct 0, XRef.RType.basic RKind.Int 0] [] false) = some 2 := by
  have h := c4_method_receiver_prepended 7
    ⟨7, XRef.GType.basic 3, XRef.RType.basic RKind.Struct 0⟩
    [some ⟨7, XRef.GType.basic 1, XRef.RType.basic RKind.Int 0⟩] [] false _ rfl
  exact ⟨h.1, h.2.1⟩

/-- Claim C9: every statement compiled by `placeSetConst` and `placeSetExpr`
(for every type category and for both plain and map-indexed places), when
executed against an environment — its sub-expression closures leaving the
instruction pointer and the owning code buffer alone — increments `env.IP`
by exactly one and returns the code-buffer entry at the new instruction
pointer together with the same environment, as its sole control transfer. -/
theorem c9_threaded_control (c : Fast.Comp) (place : Fast.Place) (val : Fast.Value)
    (fn : Fast.FunI)
    (hl : Fast.PreservesIC place.pfun)
    (hk : ∀ mk, place.mapKey = some mk → Fast.PreservesIC mk)
    (hf : Fast.PreservesIC fn.f) :
    Fast.AppendsStepping (Fast.Comp.placeSetConst c place val) c ∧
    Fast.AppendsStepping (Fast.Comp.placeSetExpr c place fn) c := by
  constructor
  · unfold Fast.Comp.placeSetConst
    dsimp only
    split
    · exact appendsStepping_none c
    · split
      · rename_i mk heq
        apply appendsStepping_retStmt
        intro e e1 hbind
        exact SameIC_trans (hl e) (SameIC_trans (hk mk heq _)
          (setMapIndex_sameIC _ _ _ _ _ hbind))
      · split
        · split
          · exact appendsStepping_none c
          · apply appendsStepping_retStmt
            intro e e1 hbind
            exact SameIC_trans (hl e) (setBool_sameIC _ _ _ _ hbind)
        · split
          · exact appendsStepping_none c
          · apply appendsStepping_retStmt
            intro e e1 hbind
            exact SameIC_trans (hl e) (setInt_sameIC _ _ _ _ hbind)
        · split
          · exact appendsStepping_none c
          · apply appendsStepping_retStmt
            intro e e1 hbind
            exact SameIC_trans (hl e) (setUint_sameIC _ _ _ _ hbind)
        · split
          · exact appendsStepping_none c
          · apply appendsStepping_retStmt
            intro e e1 hbind
            exact SameIC_trans (hl e) (setFloat_sameIC _ _ _ _ hbind)
        · split
          · exact appendsStepping_none c
          · apply appendsStepping_retStmt
            intro e e1 hbind
            exact SameIC_trans (hl e) (setComplex_sameIC _ _ _ _ _ hbind)
        · split
          · exact appendsStepping_none c
          · apply appendsStepping_retStmt
            intro e e1 hbind
            exact SameIC_trans (hl e) (setString_sameIC _ _ _ _ hbind)
        · apply appendsStepping_retStmt
          intro e e1 hbind
          exact SameIC_trans (hl e) (setGeneric_sameIC _ _ _ _ hbind)
  · unfold Fast.Comp.placeSetExpr
    dsimp only
    split
    · rename_i mk heq
      apply appendsStepping_retStmt
      intro e e1 hbind
      repeat'
        first
        | exact Option.noConfusion hbind
        | exact SameIC_trans (hl e) (SameIC_trans (hk mk heq _)
            (SameIC_trans (hf _) (setMapIndex_sameIC _ _ _ _ _ hbind)))
        | split at hbind
    · split
      all_goals
        first
        | apply appendsStepping_guard
        | apply appendsStepping_retStmt
      all_goals intro e e1 hbind
      all_goals
        repeat'
          first
          | exact Option.noConfusion hbind
          | exact SameIC_trans (hl e) (SameIC_trans (hf _) (setBool_sameIC _ _ _ _ hbind))
          | exact SameIC_trans (hl e) (SameIC_trans (hf _) (setInt_sameIC _ _ _ _ hbind))
          | exact SameIC_trans (hl e) (SameIC_trans (hf _) (setUint_sameIC _ _ _ _ hbind))
          | exact SameIC_trans (hl e) (SameIC_trans (hf _) (setFloat_sameIC _ _ _ _ hbind))
          | exact SameIC_trans (hl e) (SameIC_trans (hf _)
              (setComplex_sameIC _ _ _ _ _ hbind))
          | exact SameIC_trans (hl e) (SameIC_trans (hf _)
              (setString_sameIC _ _ _ _ hbind))
          | exact SameIC_trans (hl e) (SameIC_trans (hf _)
              (setGeneric_sameIC _ _ _ _ hbind))
          | split at hbind

/-- Witness for C9: the statement compiled for a concrete boolean constant
assignment satisfies the threading contract. -/
theorem c9_threaded_control_witness :
    Fast.AppendsStepping (Fast.Comp.placeSetConst ⟨[]⟩ (Fast.plainPlace 0 RKind.Bool)
      (Fast.Value.bool true)) ⟨[]⟩ :=
  (c9_threaded_control ⟨[]⟩ (Fast.plainPlace 0 RKind.Bool) (Fast.Value.bool true)
    ⟨some RKind.Bool, fun e => (Fast.RVal.v (Fast.Value.bool true), e)⟩
    (fun _ => ⟨rfl, rfl⟩) (fun _ h => Option.noConfusion h) (fun _ => ⟨rfl, rfl⟩)).1

/-- Helper: only `Bool` has assignment category `Bool`. -/
theorem kindCat_bool (t : RKind) (h : Fast.KindToCategory t = RKind.Bool) :
    t = RKind.Bool := by
  cases t <;> simp_all [Fast.KindToCategory, isIntKind, isUintKind]

/-- Helper: category `Int` collects exactly the signed-integer kinds. -/
theorem kindCat_int (t : RKind) (h : Fast.KindToCategory t = RKind.Int) :
    isIntKind t = true := by
  cases t <;> simp_all [Fast.KindToCategory, isIntKind, isUintKind]

/-- Helper: category `Uint` collects exactly the unsigned-integer kinds. -/
theorem kindCat_uint (t : RKind) (h : Fast.KindToCategory t = RKind.Uint) :
    isUintKind t = true := by
  cases t <;> simp_all [Fast.KindToCategory, isIntKind, isUintKind]

/-- Helper: category `Float64` collects the floating-point kinds. -/
theorem kindCat_float (t : RKind) (h : Fast.KindToCategory t = RKind.Float64) :
    t = RKind.Float32 ∨ t = RKind.Float64 := by
  cases t <;> simp_all [Fast.KindToCategory, isIntKind, isUintKind]

/-- Helper: category `Complex128` collects the complex kinds. -/
theorem kindCat_complex (t : RKind) (h : Fast.KindToCategory t = RKind.Complex128) :
    t = RKind.Complex64 ∨ t = RKind.Complex128 := by
  cases t <;> simp_all [Fast.KindToCategory, isIntKind, isUintKind]

/-- Helper: only `String` has category `String`. -/
theorem kindCat_string (t : RKind) (h : Fast.KindToCategory t = RKind.String) :
    t = RKind.String := by
  cases t <;> simp_all [Fast.KindToCategory, isIntKind, isUintKind]

/-- Helper: the signed and unsigned families are disjoint. -/
theorem uint_not_int (t : RKind) (h : isUintKind t = true) : isIntKind t = false := by
  cases t <;> simp_all [isIntKind, isUintKind]

/-- Helper: the zero value of a signed-integer kind. -/
theorem zeroValue_int (t : RKind) (h : isIntKind t = true) :
    Fast.zeroValue t = Fast.Value.int t 0 := by
  unfold Fast.zeroValue
  simp [h]

/-- Helper: the zero value of an unsigned-integer kind. -/
theorem zeroValue_uint (t : RKind) (h : isUintKind t = true) :
    Fast.zeroValue t = Fast.Value.uint t 0 := by
  unfold Fast.zeroValue
  simp [h, uint_not_int t h]

/-- Helper: wrapping is idempotent. -/
theorem wrapInt_idem (k : RKind) (x : Int) : wrapInt k (wrapInt k x) = wrapInt k x := by
  unfold wrapInt
  have h : ((x + 2 ^ (kindWidth k - 1)) % 2 ^ kindWidth k - 2 ^ (kindWidth k - 1) +
      2 ^ (kindWidth k - 1)) = (x + 2 ^ (kindWidth k - 1)) % 2 ^ kindWidth k := by ring
  rw [h, Int.emod_emod_of_dvd _ dvd_rfl]

/-- Helper: zero wraps to zero. -/
theorem wrapInt_zero (k : RKind) : wrapInt k 0 = 0 := by
  cases k <;> decide

/-- Helper: unsigned wrapping is idempotent. -/
theorem wrapUint_idem (k : RKind) (x : Nat) : wrapUint k (wrapUint k x) = wrapUint k x := by
  unfold wrapUint
  exact Nat.mod_mod_of_dvd x dvd_rfl

/-- Helper: unsigned zero wraps to zero. -/
theorem wrapUint_zero (k : RKind) : wrapUint k 0 = 0 := by
  unfold wrapUint
  exact Nat.zero_mod _

/-- Helper: a Euclidean remainder fits the kind's width. -/
theorem emod_toNat_lt (k : RKind) (i : Int) :
    (i % (2 ^ kindWidth k : Int)).toNat < 2 ^ kindWidth k := by
  have hpos : (0:Int) < 2 ^ kindWidth k := by positivity
  have hlt := Int.emod_lt_of_pos i hpos
  have hnn := Int.emod_nonneg i (ne_of_gt hpos)
  have hcast : ((2 ^ kindWidth k : Nat) : Int) = (2 ^ kindWidth k : Int) := by
    push_cast
    ring
  omega

/-- Helper: narrowing retracts widening of a float payload. -/
theorem f32_roundtrip (b : Nat) : Fast.f64toF32 (Fast.f32toF64 b) = b := by
  unfold Fast.f32toF64 Fast.f64toF32
  omega

/-- Helper: a boolean constant prepared for a boolean place is a boolean
payload. -/
theorem placeConstValue_bool (val w : Fast.Value)
    (hw : Fast.placeConstValue val RKind.Bool = some w) :
    ∃ b, w = Fast.Value.bool b := by
  unfold Fast.placeConstValue at hw
  cases hv : Fast.ValueType val with
  | none =>
    simp only [hv] at hw
    injection hw with hw
    exact ⟨false, hw.symm⟩
  | some k0 =>
    simp only [hv] at hw
    unfold Fast.convert at hw
    simp [isIntKind, isUintKind] at hw
    split at hw <;>
      first
      | exact Option.noConfusion hw
      | (injection hw with hw; exact ⟨_, hw.symm⟩)

/-- Helper: a constant prepared for a signed-integer place is a canonical
signed payload of the place's kind. -/
theorem placeConstValue_int (t : RKind) (val w : Fast.Value) (ht : isIntKind t = true)
    (hw : Fast.placeConstValue val t = some w) :
    ∃ i, w = Fast.Value.int t i ∧ wrapInt t i = i := by
  unfold Fast.placeConstValue at hw
  cases hv : Fast.ValueType val with
  | none =>
    simp only [hv] at hw
    injection hw with hw
    refine ⟨0, ?_, wrapInt_zero t⟩
    rw [← hw, zeroValue_int t ht]
  | some k0 =>
    simp only [hv] at hw
    unfold Fast.convert at hw
    simp only [ht, if_true] at hw
    split at hw <;>
      first
      | exact Option.noConfusion hw
      | (injection hw with hw; exact ⟨_, hw.symm, wrapInt_idem t _⟩)

/-- Helper: a constant prepared for an unsigned-integer place is a canonical
unsigned payload of the place's kind. -/
theorem placeConstValue_uint (t : RKind) (val w : Fast.Value) (ht : isUintKind t = true)
    (hw : Fast.placeConstValue val t = some w) :
    ∃ n, w = Fast.Value.uint t n ∧ wrapUint t n = n := by
  unfold Fast.placeConstValue at hw
  cases hv : Fast.ValueType val with
  | none =>
    simp only [hv] at hw
    injection hw with hw
    refine ⟨0, ?_, wrapUint_zero t⟩
    rw [← hw, zeroValue_uint t ht]
  | some k0 =>
    simp only [hv] at hw
    unfold Fast.convert at hw
    simp only [ht, if_true, uint_not_int t ht, Bool.false_eq_true, if_false] at hw
    split at hw <;>
      first
      | exact Option.noConfusion hw
      | (injection hw with hw; exact ⟨_, hw.symm, Nat.mod_eq_of_lt (emod_toNat_lt t _)⟩)
      | (injection hw with hw; exact ⟨_, hw.symm, wrapUint_idem t _⟩)

/-- Helper: a constant prepared for a floating-point place is a float
payload of the place's kind. -/
theorem placeConstValue_float (t : RKind) (val w : Fast.Value)
    (ht : t = RKind.Float32 ∨ t = RKind.Float64)
    (hw : Fast.placeConstValue val t = some w) :
    ∃ b, w = Fast.Value.float t b := by
  rcases ht with ht | ht <;> subst ht <;>
  · unfold Fast.placeConstValue at hw
    cases hv : Fast.ValueType val with
    | none =>
      simp only [hv] at hw
      injection hw with hw
      exact ⟨0, hw.symm⟩
    | some k0 =>
      simp only [hv] at hw
      unfold Fast.convert at hw
      simp [isIntKind, isUintKind] at hw
      split at hw <;>
        first
        | exact Option.noConfusion hw
        | (injection hw with hw; exact ⟨_, hw.symm⟩)

/-- Helper: a constant prepared for a complex place is a complex payload of
the place's kind. -/
theorem placeConstValue_complex (t : RKind) (val w : Fast.Value)
    (ht : t = RKind.Complex64 ∨ t = RKind.Complex128)
    (hw : Fast.placeConstValue val t = some w) :
    ∃ re im, w = Fast.Value.complex t re im := by
  rcases ht with ht | ht <;> subst ht <;>
  · unfold Fast.placeConstValue at hw
    cases hv : Fast.ValueType val with
    | none =>
      simp only [hv] at hw
      injection hw with hw
      exact ⟨0, 0, hw.symm⟩
    | some k0 =>
      simp only [hv] at hw
      unfold Fast.convert at hw
      simp [isIntKind, isUintKind] at hw
      split at hw <;>
        first
        | exact Option.noConfusion hw
        | (injection hw with hw; exact ⟨_, _, hw.symm⟩)

/-- Helper: a constant prepared for a string place is a string payload. -/
theorem placeConstValue_string (val w : Fast.Value)
    (hw : Fast.placeConstValue val RKind.String = some w) :
    ∃ s, w = Fast.Value.str s := by
  unfold Fast.placeConstValue at hw
  cases hv : Fast.ValueType val with
  | none =>
    simp only [hv] at hw
    injection hw with hw
    exact ⟨"", hw.symm⟩
  | some k0 =>
    simp only [hv] at hw
    unfold Fast.convert at hw
    simp [isIntKind, isUintKind] at hw
    split at hw <;>
      first
      | exact Option.noConfusion hw
      | (injection hw with hw; exact ⟨_, hw.symm⟩)

/-- Helper: a compiled plain-place assignment whose binding setter rewrites
the zero-valued cell `L` to `w` both compiles and stores exactly `w`. -/
theorem storesExactly_of (c : Fast.Comp) (L : Nat) (t : RKind) (w : Fast.Value)
    (g : Fast.Env → Fast.RVal → Option Fast.Env) (res : Option Fast.Comp)
    (hcomp : res = some {c with Code := c.Code ++ [Fast.retStmt (fun env =>
      let p := (Fast.plainPlace L t).pfun env
      g p.2 p.1)]})
    (hg : ∀ env : Fast.Env, env.store[L]? = some (Fast.zeroValue t) →
      g env (Fast.RVal.ref L) = some {env with store := env.store.set L w}) :
    res.isSome = true ∧ Fast.StoresExactly res L t w := by
  subst hcomp
  constructor
  · rfl
  · intro env henv
    refine ⟨({env with store := env.store.set L w, IP := env.IP + 1}, env.IP + 1),
      ?_, rfl, ?_⟩
    · rw [runCompiled_concat]
      show (match g env (Fast.RVal.ref L) with
        | none => none
        | some env1 => some ({env1 with IP := env1.IP + 1}, env1.IP + 1)) = _
      rw [hg env henv]
    · exact get?_set_self env.store L _ w henv

/-- Claim C8: `placeSetConst` converts the constant to the place's static type
exactly once, at compile time — the compiled statement stores a fixed value
`w`, computed from the constant and the type alone, into the location on
every execution, performing no conversion when executed; an untyped-nil-like
constant yields the zero value of the static type; and for every supported
type category, executing the compiled assignment against a freshly
zero-valued location leaves the location holding exactly `w`. -/
theorem c8_const_assignment_converts_once (t : RKind) (val w : Fast.Value) (L m : Nat)
    (key : Fast.Value) (c : Fast.Comp) (hw : Fast.placeConstValue val t = some w) :
    (Fast.Comp.placeSetConst c (Fast.plainPlace L t) val).isSome = true ∧
    Fast.StoresExactly (Fast.Comp.placeSetConst c (Fast.plainPlace L t) val) L t w ∧
    (Fast.ValueType val = none → w = Fast.zeroValue t) ∧
    Fast.MapStoresExactly (Fast.Comp.placeSetConst c (Fast.mapPlace t 0 0 m key) val)
      m key w := by
  have h3 : Fast.ValueType val = none → w = Fast.zeroValue t := by
    intro hv
    unfold Fast.placeConstValue at hw
    simp only [hv] at hw
    injection hw with hw
    exact hw.symm
  have h4 : Fast.MapStoresExactly
      (Fast.Comp.placeSetConst c (Fast.mapPlace t 0 0 m key) val) m key w := by
    intro env entries hme
    have hcomp : Fast.Comp.placeSetConst c (Fast.mapPlace t 0 0 m key) val =
        some {c with Code := c.Code ++ [Fast.retStmt (fun env =>
          let p1 := (Fast.mapPlace t 0 0 m key).pfun env
          let p2 := (Fast.logFun 0 (Fast.RVal.v key)) p1.2
          Fast.Env.setMapIndex p2.2 p1.1 p2.1 w)]} := by
      unfold Fast.Comp.placeSetConst
      simp [hw, Fast.mapPlace]
    refine ⟨({env with
          trace := (env.trace ++ [0]) ++ [0],
          maps := env.maps.set m (Fast.assocSet entries key w),
          IP := env.IP + 1},
        env.IP + 1), ?_, ?_⟩
    · rw [hcomp, runCompiled_concat]
      simp [Fast.retStmt, Fast.mapPlace, Fast.logFun, Fast.Env.setMapIndex,
        Fast.Env.asValue, hme]
    · exact get?_set_self env.maps m _ _ hme
  cases hcat : Fast.KindToCategory t
  case Bool =>
    have ht := kindCat_bool t hcat
    subst ht
    obtain ⟨b, hb⟩ := placeConstValue_bool val w hw
    subst hb
    refine (fun hm => ⟨hm.1, hm.2, h3, h4⟩)
      (storesExactly_of c L RKind.Bool (Fast.Value.bool b)
        (fun e l => Fast.Env.setBool e l b) _ ?_ ?_)
    · unfold Fast.Comp.placeSetConst
      simp [hw, Fast.plainPlace, Fast.KindToCategory, Fast.Value.getBool,
        isIntKind, isUintKind]
    · intro env henv
      simp [Fast.Env.setBool, henv, Fast.zeroValue, isIntKind, isUintKind]
  case Int =>
    have ht := kindCat_int t hcat
    obtain ⟨i, hwi, hcanon⟩ := placeConstValue_int t val w ht hw
    subst hwi
    refine (fun hm => ⟨hm.1, hm.2, h3, h4⟩)
      (storesExactly_of c L t (Fast.Value.int t i)
        (fun e l => Fast.Env.setInt e l i) _ ?_ ?_)
    · unfold Fast.Comp.placeSetConst
      simp [hw, Fast.plainPlace, Fast.KindToCategory, Fast.Value.getInt, ht]
    · intro env henv
      rw [zeroValue_int t ht] at henv
      simp [Fast.Env.setInt, henv, hcanon]
  case Uint =>
    have ht := kindCat_uint t hcat
    obtain ⟨n, hwn, hcanon⟩ := placeConstValue_uint t val w ht hw
    subst hwn
    refine (fun hm => ⟨hm.1, hm.2, h3, h4⟩)
      (storesExactly_of c L t (Fast.Value.uint t n)
        (fun e l => Fast.Env.setUint e l n) _ ?_ ?_)
    · unfold Fast.Comp.placeSetConst
      simp [hw, Fast.plainPlace, Fast.KindToCategory, Fast.Value.getUint, ht,
        uint_not_int t ht]
    · intro env henv
      rw [zeroValue_uint t ht] at henv
      simp [Fast.Env.setUint, henv, hcanon]
  case Float64 =>
    have ht := kindCat_float t hcat
    obtain ⟨b, hb⟩ := placeConstValue_float t val w ht hw
    subst hb
    rcases ht with ht | ht <;> subst ht
    · refine (fun hm => ⟨hm.1, hm.2, h3, h4⟩)
        (storesExactly_of c L RKind.Float32 (Fast.Value.float RKind.Float32 b)
          (fun e l => Fast.Env.setFloat e l (Fast.f32toF64 b)) _ ?_ ?_)
      · unfold Fast.Comp.placeSetConst
        simp [hw, Fast.plainPlace, Fast.KindToCategory, Fast.Value.getFloat,
          isIntKind, isUintKind]
      · intro env henv
        simp [Fast.Env.setFloat, henv, Fast.zeroValue, isIntKind, isUintKind,
          f32_roundtrip]
    · refine (fun hm => ⟨hm.1, hm.2, h3, h4⟩)
        (storesExactly_of c L RKind.Float64 (Fast.Value.float RKind.Float64 b)
          (fun e l => Fast.Env.setFloat e l b) _ ?_ ?_)
      · unfold Fast.Comp.placeSetConst
        simp [hw, Fast.plainPlace, Fast.KindToCategory, Fast.Value.getFloat,
          isIntKind, isUintKind]
      · intro env henv
        simp [Fast.Env.setFloat, henv, Fast.zeroValue, isIntKind, isUintKind]
  case Complex128 =>
    have ht := kindCat_complex t hcat
    obtain ⟨re, im, hz⟩ := placeConstValue_complex t val w ht hw
    subst hz
    rcases ht with ht | ht <;> subst ht
    · refine (fun hm => ⟨hm.1, hm.2, h3, h4⟩)
        (storesExactly_of c L RKind.Complex64 (Fast.Value.complex RKind.Complex64 re im)
          (fun e l => Fast.Env.setComplex e l (Fast.f32toF64 re) (Fast.f32toF64 im)) _ ?_ ?_)
      · unfold Fast.Comp.placeSetConst
        simp [hw, Fast.plainPlace, Fast.KindToCategory, Fast.Value.getComplex,
          isIntKind, isUintKind]
      · intro env henv
        simp [Fast.Env.setComplex, henv, Fast.zeroValue, isIntKind, isUintKind,
          f32_roundtrip]
    · refine (fun hm => ⟨hm.1, hm.2, h3, h4⟩)
        (storesExactly_of c L RKind.Complex128 (Fast.Value.complex RKind.Complex128 re im)
          (fun e l => Fast.Env.setComplex e l re im) _ ?_ ?_)
      · unfold Fast.Comp.placeSetConst
        simp [hw, Fast.plainPlace, Fast.KindToCategory, Fast.Value.getComplex,
          isIntKind, isUintKind]
      · intro env henv
        simp [Fast.Env.setComplex, henv, Fast.zeroValue, isIntKind, isUintKind]
  case String =>
    have ht := kindCat_string t hcat
    subst ht
    obtain ⟨s, hs⟩ := placeConstValue_string val w hw
    subst hs
    refine (fun hm => ⟨hm.1, hm.2, h3, h4⟩)
      (storesExactly_of c L RKind.String (Fast.Value.str s)
        (fun e l => Fast.Env.setString e l s) _ ?_ ?_)
    · unfold Fast.Comp.placeSetConst
      simp [hw, Fast.plainPlace, Fast.KindToCategory, Fast.Value.getString,
        isIntKind, isUintKind]
    · intro env henv
      simp [Fast.Env.setString, henv, Fast.zeroValue, isIntKind, isUintKind]
  all_goals
    refine (fun hm => ⟨hm.1, hm.2, h3, h4⟩)
      (storesExactly_of c L t w (fun e l => Fast.Env.setGeneric e l w) _ ?_ ?_)
  all_goals
    first
    | (unfold Fast.Comp.placeSetConst
       simp [hw, Fast.plainPlace, hcat])
    | (intro env henv
       simp [Fast.Env.setGeneric, henv])

/-- Witness for C8: compiling the untyped-nil constant into an int place
stores the zero value. -/
theorem c8_const_assignment_converts_once_witness :
    (Fast.Comp.placeSetConst ⟨[]⟩ (Fast.plainPlace 0 RKind.Int)
      Fast.Value.invalid).isSome = true ∧
    Fast.StoresExactly (Fast.Comp.placeSetConst ⟨[]⟩ (Fast.plainPlace 0 RKind.Int)
      Fast.Value.invalid) 0 RKind.Int (Fast.Value.int RKind.Int 0) ∧
    (Fast.ValueType Fast.Value.invalid = none →
      Fast.Value.int RKind.Int 0 = Fast.zeroValue RKind.Int) ∧
    Fast.MapStoresExactly (Fast.Comp.placeSetConst ⟨[]⟩
      (Fast.mapPlace RKind.Int 0 0 0 (Fast.Value.str "k")) Fast.Value.invalid)
      0 (Fast.Value.str "k") (Fast.Value.int RKind.Int 0) :=
  c8_const_assignment_converts_once RKind.Int Fast.Value.invalid
    (Fast.Value.int RKind.Int 0) 0 0 (Fast.Value.str "k") ⟨[]⟩ rfl

/-- Claim C1: for a map-indexed place, the compiled statement evaluates, on
every environment and each time it executes, the container expression first,
then the map-key expression, and (for expression assignment only) the value
expression third, before performing the map store — observable through the
side-effect log the three expressions append to. -/
theorem c1_map_place_evaluation_order (t : RKind) (a b d m : Nat)
    (key val w vv : Fast.Value) (c : Fast.Comp) (env : Fast.Env)
    (entries : List (Fast.Value × Fast.Value))
    (hw : Fast.placeConstValue val t = some w)
    (hm : env.maps[m]? = some entries)
    (hvv : vv.kindOf = some t) :
    Fast.TraceBecomes (Fast.Comp.placeSetConst c (Fast.mapPlace t a b m key) val) env
      (env.trace ++ [a, b]) ∧
    Fast.TraceBecomes (Fast.Comp.placeSetExpr c (Fast.mapPlace t a b m key)
      ⟨some t, Fast.logFun d (Fast.RVal.v vv)⟩) env (env.trace ++ [a, b, d]) := by
  constructor
  · have hcomp : Fast.Comp.placeSetConst c (Fast.mapPlace t a b m key) val =
        some {c with Code := c.Code ++ [Fast.retStmt (fun env =>
          let p1 := (Fast.mapPlace t a b m key).pfun env
          let p2 := (Fast.logFun b (Fast.RVal.v key)) p1.2
          Fast.Env.setMapIndex p2.2 p1.1 p2.1 w)]} := by
      unfold Fast.Comp.placeSetConst
      simp [hw, Fast.mapPlace]
    refine ⟨({env with
          trace := (env.trace ++ [a]) ++ [b],
          maps := env.maps.set m (Fast.assocSet entries key w),
          IP := env.IP + 1},
        env.IP + 1), ?_, by simp⟩
    rw [hcomp, runCompiled_concat]
    simp [Fast.retStmt, Fast.mapPlace, Fast.logFun, Fast.Env.setMapIndex,
      Fast.Env.asValue, hm]
  · have hcomp : Fast.Comp.placeSetExpr c (Fast.mapPlace t a b m key)
        ⟨some t, Fast.logFun d (Fast.RVal.v vv)⟩ =
        some {c with Code := c.Code ++ [Fast.retStmt (fun env =>
          let p1 := (Fast.mapPlace t a b m key).pfun env
          let p2 := (Fast.logFun b (Fast.RVal.v key)) p1.2
          let p3 := (Fast.logFun d (Fast.RVal.v vv)) p2.2
          match Fast.Env.asValue p3.2 p3.1 with
          | none => none
          | some val =>
            match val.kindOf with
            | none => none
            | some tk =>
              match (if tk ≠ t then Fast.convert val t else some val) with
              | none => none
              | some val => Fast.Env.setMapIndex p3.2 p1.1 p2.1 val)]} := by
      unfold Fast.Comp.placeSetExpr
      simp [Fast.mapPlace, Fast.funAsX1]
    refine ⟨({env with
          trace := ((env.trace ++ [a]) ++ [b]) ++ [d],
          maps := env.maps.set m (Fast.assocSet entries key vv),
          IP := env.IP + 1},
        env.IP + 1), ?_, by simp⟩
    rw [hcomp, runCompiled_concat]
    simp [Fast.retStmt, Fast.mapPlace, Fast.logFun, Fast.Env.setMapIndex,
      Fast.Env.asValue, hm, hvv]

/-- Witness for C1: with container, key and value expressions logging 1, 2
and 3, the constant path logs `[1, 2]` and the expression path `[1, 2, 3]`. -/
theorem c1_map_place_evaluation_order_witness :
    Fast.TraceBecomes (Fast.Comp.placeSetConst ⟨[]⟩
      (Fast.mapPlace RKind.Interface 1 2 0 (Fast.Value.str "k")) Fast.Value.invalid)
      ⟨0, [], [], [[]], []⟩ (([] : List Nat) ++ [1, 2]) ∧
    Fast.TraceBecomes (Fast.Comp.placeSetExpr ⟨[]⟩
      (Fast.mapPlace RKind.Interface 1 2 0 (Fast.Value.str "k"))
      ⟨some RKind.Interface,
        Fast.logFun 3 (Fast.RVal.v (Fast.Value.nilRef RKind.Interface))⟩)
      ⟨0, [], [], [[]], []⟩ (([] : List Nat) ++ [1, 2, 3]) :=
  c1_map_place_evaluation_order RKind.Interface 1 2 3 0 (Fast.Value.str "k")
    Fast.Value.invalid (Fast.Value.nilRef RKind.Interface)
    (Fast.Value.nilRef RKind.Interface) ⟨[]⟩ ⟨0, [], [], [[]], []⟩ [] rfl rfl rfl

end GomacroSpec
